import Mathlib

/-!
Verification of the kakarot-indexer block-reconstruction pipeline.

The development shallowly embeds the three source files
(`src/main.ts`, `src/types/transaction.ts`, `src/types/storeItem.ts`).
Repository modules that are referenced but not present under `src/`
(`types/log.ts`, `types/receipt.ts`, `types/header.ts`, the `deps.ts`
re-exports of external libraries) are modelled from the specification;
each such definition carries a doc comment starting with
`Modelled from the spec:`.

Conventions of the embedding:
* Starknet field elements and EVM quantities are `Nat` (the source uses
  `bigint`, which is unbounded).
* Byte strings are `List Nat` (each entry one byte).
* Thrown JavaScript values are modelled by `Thrown`: `errorInst` for
  values that are `instanceof Error`, `nonError` for anything else.
* `console.error` diagnostics are modelled as explicit `List String`
  outputs where a claim depends on them.
-/

/-- A thrown JavaScript value: either an `Error` instance (carrying its
message) or a non-`Error` value (carrying its string rendering). -/
inductive Thrown
  | errorInst (msg : String)
  | nonError (val : String)
deriving DecidableEq, Repr

deriving instance DecidableEq for Except

/-- Reason for which a single invocation is dropped (the decode returns
`null` in the source and the block continues). -/
inductive DropReason
  | missingCalldata
  | multiCallUnsupported (len : Nat)
  | invalidSignatureLength (len : Nat)
  | caughtError (msg : String)
  | unsignedTransaction
deriving DecidableEq, Repr

/-- An unsigned typed Ethereum transaction, one of the variants handled by
`addSignature` in `src/types/transaction.ts`: Legacy, AccessListEIP2930,
FeeMarketEIP1559, or another typed variant (for example a blob
transaction) that the external parser recognizes but `addSignature`
rejects in its final `else` branch. -/
inductive UnsignedTx
  | legacy (nonce gasPrice gasLimit : Nat) (toAddr : Option Nat)
      (value : Nat) (data : List Nat)
  | accessList (chainId nonce gasPrice gasLimit : Nat) (toAddr : Option Nat)
      (value : Nat) (data : List Nat) (accessListItems : List (Nat × List Nat))
  | feeMarket (chainId nonce maxPriorityFeePerGas maxFeePerGas gasLimit : Nat)
      (toAddr : Option Nat) (value : Nat) (data : List Nat)
      (accessListItems : List (Nat × List Nat))
  | blob
deriving DecidableEq, Repr

/-- A signed typed transaction: the unsigned payload plus the signature
`(v, r, s)` when present.  `sig = none` models a transaction whose
`toJSON()` has `v`/`r`/`s` undefined (the defensive case checked by
`toEthTx`). -/
structure TypedTransaction where
  unsigned : UnsignedTx
  sig : Option (Nat × Nat × Nat)
deriving DecidableEq, Repr

/-- Transaction type byte as exposed by `transaction.type` in the source:
0 legacy, 1 access-list, 2 fee-market, 3 other typed (blob). -/
def txTypeOf : UnsignedTx → Nat
  | .legacy .. => 0
  | .accessList .. => 1
  | .feeMarket .. => 2
  | .blob => 3

/-- Gas limit field of an unsigned transaction (`txJSON.gasLimit`). -/
def gasLimitOf : UnsignedTx → Nat
  | .legacy _ _ gl _ _ _ => gl
  | .accessList _ _ _ gl _ _ _ _ => gl
  | .feeMarket _ _ _ _ gl _ _ _ _ => gl
  | .blob => 0

/-- Source line `gasPrice: txJSON.gasPrice ?? txJSON.maxFeePerGas!`:
legacy and access-list transactions expose `gasPrice`; a fee-market
transaction falls back to `maxFeePerGas`. -/
def gasPriceOf : UnsignedTx → Nat
  | .legacy _ gp _ _ _ _ => gp
  | .accessList _ _ gp _ _ _ _ _ => gp
  | .feeMarket _ _ _ mf _ _ _ _ _ => mf
  | .blob => 0

/-- Nonce field of an unsigned transaction. -/
def nonceOf : UnsignedTx → Nat
  | .legacy n _ _ _ _ _ => n
  | .accessList _ n _ _ _ _ _ _ => n
  | .feeMarket _ n _ _ _ _ _ _ _ => n
  | .blob => 0

/-- Destination address (`to`), `none` for contract creation. -/
def toAddrOf : UnsignedTx → Option Nat
  | .legacy _ _ _ t _ _ => t
  | .accessList _ _ _ _ t _ _ _ => t
  | .feeMarket _ _ _ _ _ t _ _ _ => t
  | .blob => none

/-- Value field of an unsigned transaction. -/
def valueOf : UnsignedTx → Nat
  | .legacy _ _ _ _ v _ => v
  | .accessList _ _ _ _ _ v _ _ => v
  | .feeMarket _ _ _ _ _ _ v _ _ => v
  | .blob => 0

/-- Embedding of `addSignature` (src/types/transaction.ts, lines 163-220).
Per variant: a Legacy transaction requires `v ≥ 35` (EIP-155
replay protection encoded in `v`) and otherwise throws
`Error("Invalid v value: v")`; AccessList and FeeMarket transactions
accept any `v`; any other variant hits the final `else` branch and throws
`Error("Invalid transaction type: ...")`.  On success the transaction is
rebuilt from the same fields with `(v, r, s)` attached
(`TransactionFactory.fromTxData` of the constructed `TypedTxData`). -/
def addSignature (tx : UnsignedTx) (r s v : Nat) : Except Thrown TypedTransaction :=
  match tx with
  | .legacy n gp gl ta val d =>
      if v < 35 then
        .error (.errorInst ("Invalid v value: " ++ toString v))
      else
        .ok { unsigned := .legacy n gp gl ta val d, sig := some (v, r, s) }
  | .accessList cid n gp gl ta val d al =>
      .ok { unsigned := .accessList cid n gp gl ta val d al, sig := some (v, r, s) }
  | .feeMarket cid n mpf mf gl ta val d al =>
      .ok { unsigned := .feeMarket cid n mpf mf gl ta val d al, sig := some (v, r, s) }
  | .blob =>
      .error (.errorInst "Invalid transaction type")

/-- Modelled from the spec: `uint256.uint256ToBN` (starknet.js, re-exported
by the absent `deps.ts`).  Per §4.2: the recombination of a 2-limb 256-bit
value is `high << 128 | low`. -/
def uint256ToBN (high low : Nat) : Nat :=
  high <<< 128 ||| low

/-- Fuel-driven helper for `bigIntToBytes`; the fuel is the number itself,
which bounds the number of base-256 digits, so the fuel never runs out. -/
def minBEAux : Nat → Nat → List Nat
  | 0, _ => []
  | fuel + 1, x => if x = 0 then [] else minBEAux fuel (x / 256) ++ [x % 256]

/-- Modelled from the spec: `bigIntToBytes` (ethereumjs util, re-exported by
the absent `deps.ts`).  Per §6: minimal big-endian byte representation,
no leading zero bytes, the empty byte string for zero. -/
def bigIntToBytes (x : Nat) : List Nat :=
  minBEAux x x

/-- Modelled from the spec: `TransactionFactory.fromSerializedData`
(ethereumjs, re-exported by the absent `deps.ts`).  Per §3 and §4.3 the
variant is selected solely by the first byte of the payload: `0x01` →
AccessList, `0x02` → FeeMarket, a leading byte of an RLP list (≥ 0xc0) →
Legacy; an empty payload or a failed schema decode throws an `Error`
(`MalformedRlp`), and an unrecognized leading type byte throws an `Error`
(`UnrecognizedTransactionType`).  `0x03` parses as a further typed variant
(blob transactions, whose fields are out of scope per §1) that the rest
of the pipeline rejects.  The spec does not fix the field-level decoding
of each variant's RLP schema, so the remaining bytes are carried in the
`data` field and the numeric fields are taken as zero. -/
def fromSerializedData (bytes : List Nat) : Except Thrown UnsignedTx :=
  match bytes with
  | [] => .error (.errorInst "serialized data is empty")
  | b :: rest =>
      if b = 1 then .ok (.accessList 1 0 0 0 none 0 rest [])
      else if b = 2 then .ok (.feeMarket 1 0 0 0 0 none 0 rest [])
      else if b = 3 then .ok .blob
      else if 192 ≤ b then .ok (.legacy 0 0 0 none 0 rest)
      else .error (.errorInst ("TypedTransaction with ID " ++ toString b ++ " unknown"))

/-- One Starknet invocation as consumed by `toTypedEthTx`:
`transaction.invokeV1?.calldata` (absent when either `invokeV1` or its
`calldata` is undefined) and `transaction.meta.signature`. -/
structure Transaction where
  calldata? : Option (List Nat)
  signature : List Nat
deriving DecidableEq, Repr

/-- Result of the per-invocation decode `toTypedEthTx`: success, a dropped
invocation (the source returns `null`), or an uncaught throw that
propagates to the caller. -/
inductive TypedResult
  | ok (tx : TypedTransaction)
  | dropped (r : DropReason)
  | thrown (v : Thrown)
deriving DecidableEq, Repr

/-- The `try { ... } catch (e)` of `toTypedEthTx` (lines 137-151): an
`Error` instance is logged and converted to `null` (a dropped
invocation); any other thrown value is logged and rethrown. -/
def catchResult : Except Thrown TypedTransaction → TypedResult
  | .ok tx => .ok tx
  | .error (.errorInst m) => .dropped (.caughtError m)
  | .error (.nonError x) => .thrown (.nonError x)

/-- The body of the `try` block: parse the RLP payload with the external
factory, then attach the reconstructed signature. -/
def parseAndSign (parse : List Nat → Except Thrown UnsignedTx)
    (bytes : List Nat) (r s v : Nat) : Except Thrown TypedTransaction :=
  match parse bytes with
  | .error e => .error e
  | .ok u => addSignature u r s v

/-- Embedding of `toTypedEthTx` (src/types/transaction.ts, lines 101-152),
parameterized by the external RLP parser `parse`
(`TransactionFactory.fromSerializedData` from the absent `deps.ts`).
Control flow of the source:
* `transaction.invokeV1?.calldata` undefined (`!calldata`) → log
  "No calldata", return `null`;
* an empty calldata array is truthy in JavaScript, so it passes the
  `!calldata` test and reaches `BigInt(calldata[0])` where `calldata[0]`
  is `undefined`; `BigInt(undefined)` throws a `TypeError` outside the
  `try` block, which propagates to the caller;
* first element ≠ 1 → log and return `null` (multi-call unsupported);
* payload bytes are the minimal big-endian bytes of elements 6.. of the
  calldata, concatenated (elements 1-5 are call metadata, skipped);
* a signature of length ≠ 5 → log and return `null`;
* `r = uint256ToBN(high = sig[1], low = sig[0])`,
  `s = uint256ToBN(high = sig[3], low = sig[2])`, `v = sig[4]`;
* the parse plus signature attachment runs inside `try`/`catch`
  (`catchResult`). -/
def toTypedEthTx (parse : List Nat → Except Thrown UnsignedTx)
    (t : Transaction) : TypedResult :=
  match t.calldata? with
  | none => .dropped .missingCalldata
  | some [] => .thrown (.errorInst "Cannot convert undefined to a BigInt")
  | some (c0 :: rest) =>
      if c0 = 1 then
        let bytes := ((c0 :: rest).drop 6).flatMap bigIntToBytes
        match t.signature with
        | [l0, l1, l2, l3, l4] =>
            catchResult
              (parseAndSign parse bytes (uint256ToBN l1 l0) (uint256ToBN l3 l2) l4)
        | other => .dropped (.invalidSignatureLength other.length)
      else .dropped (.multiCallUnsupported c0)

/-- A raw Starknet event attached to an execution receipt
(`receipt.events` in `main.ts`): emitting address, keys (the first key is
the event selector), and data words. -/
structure RawEvent where
  fromAddress : Nat
  keys : List Nat
  data : List Nat
deriving DecidableEq, Repr

/-- The Starknet transaction receipt delivered with each invocation:
`transactionIndex` (possibly absent — a known upstream bug) and the
emitted events. -/
structure TransactionReceipt where
  transactionIndex : Option Nat
  events : List RawEvent
deriving DecidableEq, Repr

/-- The matched `transaction_executed` event of an invocation, summarizing
its execution outcome (spec §3 `executionOutcome`): success/revert and
gas used. -/
structure OutcomeEvent where
  gasUsed : Nat
  success : Bool
deriving DecidableEq, Repr

/-- One element of the per-block input batch: `(transaction, receipt,
event)` as destructured by `transform` in `main.ts`. -/
structure EventWithTransaction where
  transaction : Transaction
  receipt : TransactionReceipt
  event : OutcomeEvent
deriving DecidableEq, Repr

/-- The JSON-RPC transaction record produced by `toEthTx`, restricted to
the fields the embedding needs (numeric fields are `Nat` in place of
zero-padded hex strings). -/
structure JsonRpcTx where
  blockNumber : Nat
  blockHash : Nat
  fromAddr : Nat
  gas : Nat
  gasPrice : Nat
  txType : Nat
  hash : Nat
  nonce : Nat
  toAddr : Option Nat
  transactionIndex : Nat
  value : Nat
  v : Nat
  r : Nat
  s : Nat
deriving DecidableEq, Repr

/-- A JSON-RPC log record (`JsonRpcLog` of the absent `types/log.ts`);
`logIndex` is assigned by the caller in `main.ts` as the position in the
filtered per-transaction log sequence. -/
structure JsonRpcLog where
  address : Nat
  topics : List Nat
  data : List Nat
  logIndex : Nat
  transactionIndex : Nat
deriving DecidableEq, Repr

/-- A JSON-RPC receipt record (`JsonRpcReceipt` of the absent
`types/receipt.ts`), restricted to the fields the claims mention. -/
structure JsonRpcReceipt where
  transactionIndex : Nat
  cumulativeGasUsed : Nat
  gasUsed : Nat
  logsBloom : Nat
  status : Nat
  logs : List JsonRpcLog
deriving DecidableEq, Repr

/-- The source-chain block header consumed by `transform`. -/
structure BlockHeader where
  blockNumber : Nat
  blockHash : Nat
  parentHash : Nat
  timestamp : Nat
deriving DecidableEq, Repr

/-- The JSON-RPC block header produced by `toEthHeader` (absent
`types/header.ts`). -/
structure JsonRpcHeader where
  blockNumber : Nat
  blockHash : Nat
  parentHash : Nat
  timestamp : Nat
  gasUsed : Nat
  logsBloom : Nat
  receiptRoot : Nat
  transactionRoot : Nat
deriving DecidableEq, Repr

/-- External dependencies of the pipeline that live outside `src/`:
the ethereumjs RLP parser, hash/sender/serialization of a signed
transaction, the log filter configuration of `types/log.ts` (its fixed
ignore-list and per-selector expected key count, which the spec names
but does not enumerate), the standard bloom construction over a
transaction's logs, `encodeReceipt`, and the Merkle-Patricia trie root.
Blooms are 2048-bit vectors represented as `Nat` with bitwise or;
trie contents are the list of `put` key/value pairs. -/
structure ExternalDeps where
  parse : List Nat → Except Thrown UnsignedTx
  senderOf : TypedTransaction → Nat
  hashOf : TypedTransaction → Nat
  serializeTx : TypedTransaction → List Nat
  ignoredKeys : List Nat
  expectedKeyCount : Nat → Nat
  bloomOfLogs : List JsonRpcLog → Nat
  encodeReceipt : JsonRpcReceipt → Nat → List Nat
  trieRoot : List (Nat × List Nat) → Nat

/-- Diagnostic logged by `toEthTx` when the upstream transaction index is
absent (src/types/transaction.ts, lines 54-58). -/
def indexDiagMsg : String :=
  "Known bug (apibara): Transaction index is undefined - Transaction index will be set to 0."

/-- Diagnostic logged by `toEthTx` when the transaction is unsigned
(src/types/transaction.ts, lines 61-71). -/
def unsignedDiagMsg : String :=
  "Transaction is not signed"

/-- Output of `toEthTx`: the record (or `null`) plus the `console.error`
diagnostics emitted, in order. -/
structure EthTxOut where
  tx? : Option JsonRpcTx
  diagnostics : List String
deriving DecidableEq, Repr

/-- Embedding of `toEthTx` (src/types/transaction.ts, lines 41-95).
If `receipt.transactionIndex` is undefined a non-fatal diagnostic is
logged and the index defaults to 0 (`BigInt(index ?? 0)`); if the
transaction carries no signature (`txJSON.r/s/v` undefined) a diagnostic
is logged and the result is `null`; otherwise the fields are mapped 1:1
(with `gasPrice` falling back to `maxFeePerGas`, see `gasPriceOf`, and
`to` equal to `none` for contract creation). -/
def toEthTx (deps : ExternalDeps) (transaction : TypedTransaction)
    (receipt : TransactionReceipt) (blockNumber blockHash : Nat) : EthTxOut :=
  let index := receipt.transactionIndex
  let diags := if index.isNone then [indexDiagMsg] else []
  match transaction.sig with
  | none => { tx? := none, diagnostics := diags ++ [unsignedDiagMsg] }
  | some vrs =>
      { tx? := some
          { blockNumber := blockNumber
            blockHash := blockHash
            fromAddr := deps.senderOf transaction
            gas := gasLimitOf transaction.unsigned
            gasPrice := gasPriceOf transaction.unsigned
            txType := txTypeOf transaction.unsigned
            hash := deps.hashOf transaction
            nonce := nonceOf transaction.unsigned
            toAddr := toAddrOf transaction.unsigned
            transactionIndex := index.getD 0
            value := valueOf transaction.unsigned
            v := vrs.1
            r := vrs.2.1
            s := vrs.2.2 }
        diagnostics := diags }

/-- Modelled from the spec: `toEthLog` (absent `types/log.ts`).  Per §4.5:
an event whose selector (first key) belongs to a fixed ignore-list, or
whose key count differs from the selector's expected count, yields no
record (filtered, not an error); every other event maps to a
`JsonRpcLog`.  The ignore-list and the expected key counts are supplied
through `ExternalDeps` since the spec names but does not enumerate them.
The `logIndex` of the returned record is overwritten by the caller. -/
def toEthLog (ignoredKeys : List Nat) (expectedKeyCount : Nat → Nat)
    (tx : JsonRpcTx) (e : RawEvent) : Option JsonRpcLog :=
  match e.keys with
  | [] => none
  | k :: _ =>
      if ignoredKeys.contains k then none
      else if e.keys.length ≠ expectedKeyCount k then none
      else some
        { address := e.fromAddress
          topics := e.keys
          data := e.data
          logIndex := 0
          transactionIndex := tx.transactionIndex }

/-- Modelled from the spec: `toEthReceipt` (absent `types/receipt.ts`).
Per §4.6: `gasUsed` is taken from the execution outcome, the receipt's
`cumulativeGasUsed` is the running total before this transaction plus its
own `gasUsed`, the per-receipt bloom is built from the formatted logs by
the standard bloom procedure (supplied through `ExternalDeps`), and
`status` is the outcome bit. -/
def toEthReceipt (bloomOfLogs : List JsonRpcLog → Nat) (tx : JsonRpcTx)
    (logs : List JsonRpcLog) (oe : OutcomeEvent) (cumulativeGasUsed : Nat) :
    JsonRpcReceipt :=
  { transactionIndex := tx.transactionIndex
    cumulativeGasUsed := cumulativeGasUsed + oe.gasUsed
    gasUsed := oe.gasUsed
    logsBloom := bloomOfLogs logs
    status := if oe.success then 1 else 0
    logs := logs }

/-- Modelled from the spec: `toEthHeader` (absent `types/header.ts`).
Per §4.9: a pure mapping combining the source header fields with the
final cumulative gas, final block bloom, and the two trie roots.  In the
embedding the required source fields are always present, so the
`IncompleteSourceHeader` failure path does not arise. -/
def toEthHeader (header : BlockHeader) (gasUsed logsBloom receiptRoot transactionRoot : Nat) :
    JsonRpcHeader :=
  { blockNumber := header.blockNumber
    blockHash := header.blockHash
    parentHash := header.parentHash
    timestamp := header.timestamp
    gasUsed := gasUsed
    logsBloom := logsBloom
    receiptRoot := receiptRoot
    transactionRoot := transactionRoot }

/-- The per-transaction artifacts produced by one surviving invocation of
the `Promise.all` callback in `transform`: the signed typed transaction,
its JSON-RPC record, its indexed logs (the source assigns `logIndex` by
mutating the log objects in place, so the logs later pushed to the store
carry the assigned indices), and its receipt. -/
structure TxArtifacts where
  typedTx : TypedTransaction
  ethTx : JsonRpcTx
  ethLogs : List JsonRpcLog
  ethReceipt : JsonRpcReceipt
deriving DecidableEq, Repr

/-- Outcome of one invocation's callback in `transform`: an uncaught
throw (rejecting the whole `Promise.all`), a dropped invocation (the
callback returns early), or the surviving artifacts. -/
inductive ProcResult
  | thrown (v : Thrown)
  | dropped (r : DropReason)
  | survived (a : TxArtifacts)
deriving DecidableEq, Repr

/-- Embedding of the synchronous prefix of one `Promise.all` callback in
`transform` (src/main.ts, lines 77-126): decode the typed transaction,
format the JSON-RPC transaction, filter and index the logs, and build the
receipt.  All of this code runs before the callback's first `await`
(`transactionTrie.put`), and the `cumulativeGasUsed +=` statement runs
only after that `await`; since `Array.map` invokes every callback's
synchronous prefix before any microtask resumes, every callback observes
the accumulator at its initial value `0`, which is why `toEthReceipt` is
applied to `0` here. -/
def processEvent (deps : ExternalDeps) (blockNumber blockHash : Nat)
    (ewt : EventWithTransaction) : ProcResult :=
  match toTypedEthTx deps.parse ewt.transaction with
  | .thrown v => .thrown v
  | .dropped r => .dropped r
  | .ok typedTx =>
      match (toEthTx deps typedTx ewt.receipt blockNumber blockHash).tx? with
      | none => .dropped .unsignedTransaction
      | some ethTx =>
          let ethLogs :=
            ewt.receipt.events.filterMap
              (toEthLog deps.ignoredKeys deps.expectedKeyCount ethTx)
          let ethLogsIndexed :=
            ethLogs.enum.map (fun p => { p.2 with logIndex := p.1 })
          let ethReceipt :=
            toEthReceipt deps.bloomOfLogs ethTx ethLogsIndexed ewt.event 0
          .survived
            { typedTx := typedTx
              ethTx := ethTx
              ethLogs := ethLogsIndexed
              ethReceipt := ethReceipt }

/-- The surviving artifacts of a block, in delivery order; `.error` when
any callback throws (the `Promise.all` in `transform` then rejects and
the block's transform aborts with no output). -/
def phase1 (deps : ExternalDeps) (blockNumber blockHash : Nat) :
    List EventWithTransaction → Except Thrown (List TxArtifacts)
  | [] => .ok []
  | e :: rest =>
      match processEvent deps blockNumber blockHash e with
      | .thrown v => .error v
      | .dropped _ => phase1 deps blockNumber blockHash rest
      | .survived a =>
          match phase1 deps blockNumber blockHash rest with
          | .error v => .error v
          | .ok arts => .ok (a :: arts)

/-- A persisted record, matching the `StoreItem` tagged union of
`src/types/storeItem.ts` over the collections `transactions`,
`receipts`, `logs` and `headers` (the `createdAt` wall-clock timestamp is
not modelled). -/
inductive StoreItem
  | txItem (tx : JsonRpcTx)
  | receiptItem (receipt : JsonRpcReceipt)
  | logItem (log : JsonRpcLog)
  | headerItem (header : JsonRpcHeader)
deriving DecidableEq, Repr

/-- The store pushes of one surviving transaction (src/main.ts, lines
150-155): its transaction item, then its receipt item, then one log item
per indexed log.  The three groups of a callback are pushed with no
intervening `await`, so each transaction's pushes are contiguous. -/
def pushesOf (a : TxArtifacts) : List StoreItem :=
  .txItem a.ethTx :: .receiptItem a.ethReceipt :: a.ethLogs.map .logItem

/-- Transaction-trie insertions performed in completion order: key the RLP
encoding of `ethTx.transactionIndex` (represented by the index itself,
the encoding being injective), value `typedEthTx.serialize()`. -/
def txTriePuts (deps : ExternalDeps) (completion : List TxArtifacts) :
    List (Nat × List Nat) :=
  completion.map (fun a => (a.ethTx.transactionIndex, deps.serializeTx a.typedTx))

/-- Receipt-trie insertions performed in completion order: same key, value
`encodeReceipt(fromJsonRpcReceipt(ethReceipt), typedEthTx.type)`. -/
def receiptTriePuts (deps : ExternalDeps) (completion : List TxArtifacts) :
    List (Nat × List Nat) :=
  completion.map
    (fun a => (a.ethTx.transactionIndex, deps.encodeReceipt a.ethReceipt (txTypeOf a.typedTx.unsigned)))

/-- The block header record assembled by `toEthHeader` at the end of
`transform`: total gas is the sum of the surviving receipts' `gasUsed`
(the accumulator after all `+=` have run), the block bloom is the
bitwise-or fold of the per-receipt blooms, and the two trie roots are
computed over all insertions. -/
def headerOut (deps : ExternalDeps) (hdr : BlockHeader)
    (completion : List TxArtifacts) : JsonRpcHeader :=
  toEthHeader hdr
    ((completion.map (fun a => a.ethReceipt.gasUsed)).sum)
    ((completion.map (fun a => a.ethReceipt.logsBloom)).foldl Nat.lor 0)
    (deps.trieRoot (receiptTriePuts deps completion))
    (deps.trieRoot (txTriePuts deps completion))

/-- The full store of a successful block: the per-transaction pushes in
completion order followed by the single header item. -/
def buildStore (deps : ExternalDeps) (hdr : BlockHeader)
    (completion : List TxArtifacts) : List StoreItem :=
  completion.flatMap pushesOf ++ [.headerItem (headerOut deps hdr completion)]

/-- Embedding of `transform` (src/main.ts, lines 58-176).  The source
fans the batch out with `Promise.all(events.map(async ...))` over shared
mutable state.  Deterministic parts: every callback's synchronous prefix
(`processEvent`) runs in delivery order before any increment of the
accumulator lands, and the header item is pushed after `await
Promise.all`, hence strictly last.  The order in which the callbacks
resume after their trie `await`s — and hence the order of store pushes,
trie insertions, bloom or-merges and gas increments across transactions —
depends on promise scheduling; it is passed explicitly as `completion`,
which theorems constrain to be a permutation of the phase-1 survivors.
If any callback throws, `Promise.all` rejects and the whole block's
transform aborts with that error and no output. -/
def transform (deps : ExternalDeps) (hdr : BlockHeader)
    (events : List EventWithTransaction) (completion : List TxArtifacts) :
    Except Thrown (List StoreItem) :=
  match phase1 deps hdr.blockNumber hdr.blockHash events with
  | .error v => .error v
  | .ok _ => .ok (buildStore deps hdr completion)

/-- Projection of a store item to its receipt record, if it is one. -/
def receiptOfItem : StoreItem → Option JsonRpcReceipt
  | .receiptItem r => some r
  | _ => none

/-- Projection of a store item to its log record, if it is one. -/
def logOfItem : StoreItem → Option JsonRpcLog
  | .logItem l => some l
  | _ => none

/-- Projection of a store item to its header record, if it is one. -/
def headerOfItem : StoreItem → Option JsonRpcHeader
  | .headerItem h => some h
  | _ => none

/-- Receipt records appearing in a store, in order. -/
def receiptsOf (store : List StoreItem) : List JsonRpcReceipt :=
  store.filterMap receiptOfItem

/-- Log records appearing in a store, in order. -/
def logsOf (store : List StoreItem) : List JsonRpcLog :=
  store.filterMap logOfItem

/-- Header records appearing in a store, in order. -/
def headersOf (store : List StoreItem) : List JsonRpcHeader :=
  store.filterMap headerOfItem

theorem headersOf_pushesOf (a : TxArtifacts) : headersOf (pushesOf a) = [] := by
  simp only [headersOf, pushesOf, List.filterMap_cons, headerOfItem]
  induction a.ethLogs with
  | nil => rfl
  | cons x xs ih => simp [List.filterMap_cons, headerOfItem, ih]

theorem logsOf_pushesOf (a : TxArtifacts) : logsOf (pushesOf a) = a.ethLogs := by
  simp only [logsOf, pushesOf, List.filterMap_cons, logOfItem]
  induction a.ethLogs with
  | nil => rfl
  | cons x xs ih => simpa [List.filterMap_cons, logOfItem] using ih

theorem receiptsOf_pushesOf (a : TxArtifacts) : receiptsOf (pushesOf a) = [a.ethReceipt] := by
  simp only [receiptsOf, pushesOf, List.filterMap_cons, receiptOfItem]
  induction a.ethLogs with
  | nil => rfl
  | cons x xs ih => simp [List.filterMap_cons, receiptOfItem, ih]

theorem headersOf_buildStore (deps : ExternalDeps) (hdr : BlockHeader)
    (completion : List TxArtifacts) :
    headersOf (buildStore deps hdr completion) = [headerOut deps hdr completion] := by
  unfold buildStore
  rw [headersOf, List.filterMap_append]
  have h1 : List.filterMap headerOfItem (completion.flatMap pushesOf) = [] := by
    induction completion with
    | nil => rfl
    | cons a rest ih =>
        rw [List.flatMap_cons, List.filterMap_append, ih, List.append_nil]
        exact headersOf_pushesOf a
  rw [h1]
  rfl

theorem logsOf_buildStore (deps : ExternalDeps) (hdr : BlockHeader)
    (completion : List TxArtifacts) :
    logsOf (buildStore deps hdr completion) = completion.flatMap (fun a => a.ethLogs) := by
  unfold buildStore
  rw [logsOf, List.filterMap_append]
  have h1 : List.filterMap logOfItem (completion.flatMap pushesOf) =
      completion.flatMap (fun a => a.ethLogs) := by
    induction completion with
    | nil => rfl
    | cons a rest ih =>
        rw [List.flatMap_cons, List.filterMap_append, ih, List.flatMap_cons]
        have h2 := logsOf_pushesOf a
        rw [logsOf] at h2
        rw [h2]
  rw [h1]
  simp [logOfItem]

theorem receiptsOf_buildStore (deps : ExternalDeps) (hdr : BlockHeader)
    (completion : List TxArtifacts) :
    receiptsOf (buildStore deps hdr completion) = completion.map (fun a => a.ethReceipt) := by
  unfold buildStore
  rw [receiptsOf, List.filterMap_append]
  have h1 : List.filterMap receiptOfItem (completion.flatMap pushesOf) =
      completion.map (fun a => a.ethReceipt) := by
    induction completion with
    | nil => rfl
    | cons a rest ih =>
        rw [List.flatMap_cons, List.filterMap_append, ih, List.map_cons]
        have h2 := receiptsOf_pushesOf a
        rw [receiptsOf] at h2
        rw [h2]
        rfl
  rw [h1]
  simp [receiptOfItem]

theorem buildStore_getLast (deps : ExternalDeps) (hdr : BlockHeader)
    (completion : List TxArtifacts) :
    (buildStore deps hdr completion).getLast? =
      some (.headerItem (headerOut deps hdr completion)) := by
  unfold buildStore
  rw [List.getLast?_concat]

theorem transform_ok_inv (deps : ExternalDeps) (hdr : BlockHeader)
    (events : List EventWithTransaction) (completion : List TxArtifacts)
    (store : List StoreItem) (h : transform deps hdr events completion = .ok store) :
    store = buildStore deps hdr completion := by
  unfold transform at h
  split at h
  · exact absurd h (by simp)
  · exact (Except.ok.inj h).symm

theorem phase1_append_dropped (deps : ExternalDeps) (bn bh : Nat)
    (e : EventWithTransaction) (r : DropReason) (pre post : List EventWithTransaction)
    (h : processEvent deps bn bh e = .dropped r) :
    phase1 deps bn bh (pre ++ e :: post) = phase1 deps bn bh (pre ++ post) := by
  induction pre with
  | nil => simp [phase1, h]
  | cons p pre ih =>
      cases hp : processEvent deps bn bh p <;> simp [phase1, hp, ih]

theorem phase1_append_thrown (deps : ExternalDeps) (bn bh : Nat)
    (e : EventWithTransaction) (v : Thrown) (pre post : List EventWithTransaction)
    (h : processEvent deps bn bh e = .thrown v) :
    ∃ w, phase1 deps bn bh (pre ++ e :: post) = .error w := by
  induction pre with
  | nil => exact ⟨v, by simp [phase1, h]⟩
  | cons p pre ih =>
      obtain ⟨w, hw⟩ := ih
      cases hp : processEvent deps bn bh p with
      | thrown v' => exact ⟨v', by simp [phase1, hp]⟩
      | dropped r' => exact ⟨w, by simp [phase1, hp, hw]⟩
      | survived a => exact ⟨w, by simp [phase1, hp, hw]⟩

theorem transform_append_dropped (deps : ExternalDeps) (hdr : BlockHeader)
    (e : EventWithTransaction) (r : DropReason)
    (pre post : List EventWithTransaction) (completion : List TxArtifacts)
    (h : processEvent deps hdr.blockNumber hdr.blockHash e = .dropped r) :
    transform deps hdr (pre ++ e :: post) completion =
      transform deps hdr (pre ++ post) completion := by
  unfold transform
  rw [phase1_append_dropped deps hdr.blockNumber hdr.blockHash e r pre post h]

theorem transform_append_thrown (deps : ExternalDeps) (hdr : BlockHeader)
    (e : EventWithTransaction) (v : Thrown)
    (pre post : List EventWithTransaction) (completion : List TxArtifacts)
    (h : processEvent deps hdr.blockNumber hdr.blockHash e = .thrown v) :
    ∃ w, transform deps hdr (pre ++ e :: post) completion = .error w := by
  obtain ⟨w, hw⟩ := phase1_append_thrown deps hdr.blockNumber hdr.blockHash e v pre post h
  exact ⟨w, by unfold transform; rw [hw]⟩

theorem phase1_mem (deps : ExternalDeps) (bn bh : Nat) :
    ∀ (events : List EventWithTransaction) (arts : List TxArtifacts),
      phase1 deps bn bh events = .ok arts →
      ∀ a ∈ arts, ∃ e ∈ events, processEvent deps bn bh e = .survived a := by
  intro events
  induction events with
  | nil =>
      intro arts h a ha
      simp only [phase1] at h
      cases h
      simp at ha
  | cons e rest ih =>
      intro arts h a ha
      cases hp : processEvent deps bn bh e with
      | thrown v => simp [phase1, hp] at h
      | dropped r =>
          simp only [phase1, hp] at h
          obtain ⟨e', he', hpe⟩ := ih arts h a ha
          exact ⟨e', List.mem_cons_of_mem _ he', hpe⟩
      | survived a0 =>
          simp only [phase1, hp] at h
          cases hr : phase1 deps bn bh rest with
          | error v => rw [hr] at h; exact absurd h (by simp)
          | ok arts0 =>
              rw [hr] at h
              cases h
              rcases List.mem_cons.1 ha with h1 | h2
              · exact ⟨e, List.mem_cons_self e rest, by rw [h1]; exact hp⟩
              · obtain ⟨e', he', hpe⟩ := ih arts0 hr a h2
                exact ⟨e', List.mem_cons_of_mem _ he', hpe⟩

theorem processEvent_survived_logs (deps : ExternalDeps) (bn bh : Nat)
    (ewt : EventWithTransaction) (a : TxArtifacts)
    (h : processEvent deps bn bh ewt = .survived a) :
    a.ethLogs =
      ((ewt.receipt.events.filterMap
          (toEthLog deps.ignoredKeys deps.expectedKeyCount a.ethTx)).enum.map
        (fun p => { p.2 with logIndex := p.1 })) := by
  simp only [processEvent] at h
  split at h
  · exact absurd h (by simp)
  · exact absurd h (by simp)
  · split at h
    · exact absurd h (by simp)
    · cases h
      rfl

theorem foldl_lor_perm {l1 l2 : List Nat} (p : List.Perm l1 l2) :
    ∀ b : Nat, l1.foldl Nat.lor b = l2.foldl Nat.lor b := by
  induction p with
  | nil => intro b; rfl
  | cons x _ ih => intro b; simp only [List.foldl_cons]; exact ih _
  | swap x y l =>
      intro b
      simp only [List.foldl_cons]
      show List.foldl Nat.lor (b ||| y ||| x) l = List.foldl Nat.lor (b ||| x ||| y) l
      rw [Nat.lor_assoc, Nat.lor_comm y x, ← Nat.lor_assoc]
  | trans _ _ ih1 ih2 => intro b; rw [ih1, ih2]

theorem enum_logIndex_range (l : List JsonRpcLog) :
    ((l.enum.map (fun p => { p.2 with logIndex := p.1 })).map
        (fun x => x.logIndex)) = List.range l.length := by
  rw [List.map_map]
  have : ((fun x : JsonRpcLog => x.logIndex) ∘ fun p : Nat × JsonRpcLog =>
      { p.2 with logIndex := p.1 }) = Prod.fst := by
    funext p
    rfl
  rw [this, List.enum_map_fst]

/-- Concrete instantiation of the external dependencies, used by the
concrete evaluations below: the spec-modelled parser together with simple
computable stand-ins for the opaque hash, sender, serialization, bloom
and trie-root functions (the theorems above quantify over arbitrary
`ExternalDeps`, so nothing depends on these stand-ins). -/
def specDeps : ExternalDeps :=
  { parse := fromSerializedData
    senderOf := fun _ => 0
    hashOf := fun _ => 0
    serializeTx := fun _ => []
    ignoredKeys := [11]
    expectedKeyCount := fun _ => 1
    bloomOfLogs := fun logs => (logs.map (fun l => l.address)).foldl Nat.lor 0
    encodeReceipt := fun _ _ => []
    trieRoot := fun puts => puts.length }

/-- A concrete source-chain block header. -/
def hdr0 : BlockHeader :=
  { blockNumber := 100, blockHash := 200, parentHash := 3, timestamp := 4 }

/-- Calldata of a well-formed single-call invocation: call-array length 1,
five metadata words, then the one-byte payload `0xc0`, which the parser
dispatches to the Legacy variant. -/
def legacyCalldata : List Nat := [1, 0, 0, 0, 0, 0, 192]

/-- A five-limb signature with `v = 35` (accepted for Legacy). -/
def sig35 : List Nat := [0, 0, 0, 0, 35]

/-- A well-formed invocation transaction. -/
def goodTxn : Transaction := { calldata? := some legacyCalldata, signature := sig35 }

/-- A raw event with one key (selector 5) that the modelled log filter keeps. -/
def rawEv : RawEvent := { fromAddress := 9, keys := [5], data := [1, 2] }

/-- A surviving invocation with receipt index `idx`, gas `g`, and raw
events `evs`. -/
def mkEvent (idx : Option Nat) (g : Nat) (evs : List RawEvent) : EventWithTransaction :=
  { transaction := goodTxn
    receipt := { transactionIndex := idx, events := evs }
    event := { gasUsed := g, success := true } }

/-- The C1 failing input: three surviving invocations delivered with
transactionIndex fields [2, 0, 1] and gasUsed [7, 5, 3]. -/
def c1Events : List EventWithTransaction :=
  [mkEvent (some 2) 7 [], mkEvent (some 0) 5 [], mkEvent (some 1) 3 []]

/-- The phase-1 survivors of the C1 block, in delivery order (also used as
the completion order). -/
def c1Arts : List TxArtifacts :=
  match phase1 specDeps hdr0.blockNumber hdr0.blockHash c1Events with
  | .ok arts => arts
  | .error _ => []

/-- The store emitted for the C1 block. -/
def c1Store : List StoreItem := buildStore specDeps hdr0 c1Arts

/-- C1: the claim fails on the code (code bug).  For the block whose
invocations are delivered with `transactionIndex` fields [2, 0, 1] and
`gasUsed` [7, 5, 3], the emitted receipts carry `cumulativeGasUsed` equal
to each transaction's own `gasUsed` — every per-invocation task reads the
shared accumulator before any increment has executed, because all
synchronous prefixes run before the first `await` resumes — so the
receipt with index 1 shows 3 where accumulation in ascending
`transactionIndex` order requires 5 + 3 = 8, and the receipt with index 2
shows 7 where it requires 15: the claimed prefix-sum property does not
hold for the emitted receipts. -/
theorem c1_cumulative_gas_not_index_ordered :
    transform specDeps hdr0 c1Events c1Arts = .ok c1Store
  ∧ (receiptsOf c1Store).map
      (fun rc => (rc.transactionIndex, rc.cumulativeGasUsed, rc.gasUsed))
      = [(2, 7, 7), (0, 5, 5), (1, 3, 3)]
  ∧ ¬ (∀ rc ∈ receiptsOf c1Store,
        rc.cumulativeGasUsed =
          (((receiptsOf c1Store).filter
              (fun q => q.transactionIndex ≤ rc.transactionIndex)).map
            (fun q => q.gasUsed)).sum) := by
  refine ⟨?_, ?_, ?_⟩ <;> decide

/-- An invocation transaction whose calldata is present but empty. -/
def emptyCalldataTxn : Transaction := { calldata? := some [], signature := sig35 }

/-- A block event wrapping the empty-calldata transaction. -/
def emptyCalldataEvent : EventWithTransaction :=
  { transaction := emptyCalldataTxn
    receipt := { transactionIndex := some 1, events := [] }
    event := { gasUsed := 1, success := true } }

/-- C2 counterexample: an empty calldata sequence is not dropped with
MissingCalldata — the empty array passes the `!calldata` test, so
`BigInt(calldata[0])` throws an uncaught conversion error, and a block
containing such an invocation aborts (its `Promise.all` rejects) instead
of continuing with the remaining StoreItems; likewise a nonempty calldata
shorter than the six-element prefix (here `[1, 2]`) is not reported as
MissingCalldata but proceeds with empty payload bytes and is dropped as a
caught parse error. -/
theorem c2_missing_calldata_counterexample :
    toTypedEthTx fromSerializedData emptyCalldataTxn
        = .thrown (.errorInst "Cannot convert undefined to a BigInt")
  ∧ toTypedEthTx fromSerializedData emptyCalldataTxn ≠ .dropped .missingCalldata
  ∧ toTypedEthTx fromSerializedData { calldata? := some [1, 2], signature := sig35 }
        = .dropped (.caughtError "serialized data is empty")
  ∧ transform specDeps hdr0 [mkEvent (some 0) 5 [], emptyCalldataEvent] []
        = .error (.errorInst "Cannot convert undefined to a BigInt") := by
  refine ⟨?_, ?_, ?_, ?_⟩ <;> decide

/-- C2 (amended): an invocation whose calldata is absent (undefined) fails
with MissingCalldata and only that invocation is dropped — the block's
transform output is unchanged, so the remaining StoreItems are still
emitted; an invocation whose calldata is the empty sequence instead
raises an uncaught conversion error and the whole block's transform
aborts with an error. -/
theorem c2_missing_calldata_amended (deps : ExternalDeps) (sig : List Nat)
    (rc : TransactionReceipt) (oe : OutcomeEvent) (hdr : BlockHeader)
    (pre post : List EventWithTransaction) (completion : List TxArtifacts) :
    (toTypedEthTx deps.parse { calldata? := none, signature := sig }
        = .dropped .missingCalldata
      ∧ transform deps hdr
          (pre ++ { transaction := { calldata? := none, signature := sig },
                    receipt := rc, event := oe } :: post) completion
        = transform deps hdr (pre ++ post) completion)
  ∧ (toTypedEthTx deps.parse { calldata? := some [], signature := sig }
        = .thrown (.errorInst "Cannot convert undefined to a BigInt")
      ∧ ∃ w, transform deps hdr
          (pre ++ { transaction := { calldata? := some [], signature := sig },
                    receipt := rc, event := oe } :: post) completion
        = .error w) := by
  refine ⟨⟨rfl, ?_⟩, ⟨rfl, ?_⟩⟩
  · exact transform_append_dropped deps hdr _ .missingCalldata pre post completion rfl
  · exact transform_append_thrown deps hdr _
      (.errorInst "Cannot convert undefined to a BigInt") pre post completion rfl

/-- C2 witness: the amended claim applied to a concrete block — an absent
calldata is dropped leaving the transform unchanged, and an empty
calldata aborts the transform. -/
theorem c2_missing_calldata_witness :
    (toTypedEthTx specDeps.parse { calldata? := none, signature := sig35 }
        = .dropped .missingCalldata
      ∧ transform specDeps hdr0
          ([] ++ { transaction := { calldata? := none, signature := sig35 },
                   receipt := { transactionIndex := some 1, events := [] },
                   event := { gasUsed := 1, success := true } } :: [mkEvent (some 0) 5 []]) []
        = transform specDeps hdr0 ([] ++ [mkEvent (some 0) 5 []]) [])
  ∧ (toTypedEthTx specDeps.parse { calldata? := some [], signature := sig35 }
        = .thrown (.errorInst "Cannot convert undefined to a BigInt")
      ∧ ∃ w, transform specDeps hdr0
          ([] ++ { transaction := { calldata? := some [], signature := sig35 },
                   receipt := { transactionIndex := some 1, events := [] },
                   event := { gasUsed := 1, success := true } } :: [mkEvent (some 0) 5 []]) []
        = .error w) :=
  c2_missing_calldata_amended specDeps sig35
    { transactionIndex := some 1, events := [] }
    { gasUsed := 1, success := true } hdr0 [] [mkEvent (some 0) 5 []] []

/-- C3: an invocation whose first calldata element is not 1 is dropped
with MultiCallUnsupported, and the block's transform output is identical
to the output for the block without that invocation — so no transaction,
receipt or log StoreItem derived from it appears, no entry for it reaches
either trie, and it contributes nothing to the block bloom or the
cumulative gas. -/
theorem c3_multicall_dropped (deps : ExternalDeps) (c0 : Nat) (rest sig : List Nat)
    (rc : TransactionReceipt) (oe : OutcomeEvent) (hdr : BlockHeader)
    (pre post : List EventWithTransaction) (completion : List TxArtifacts)
    (h1 : c0 ≠ 1) :
    toTypedEthTx deps.parse { calldata? := some (c0 :: rest), signature := sig }
        = .dropped (.multiCallUnsupported c0)
  ∧ transform deps hdr
      (pre ++ { transaction := { calldata? := some (c0 :: rest), signature := sig },
                receipt := rc, event := oe } :: post) completion
    = transform deps hdr (pre ++ post) completion := by
  have htx : toTypedEthTx deps.parse { calldata? := some (c0 :: rest), signature := sig }
      = .dropped (.multiCallUnsupported c0) := by
    simp [toTypedEthTx, h1]
  refine ⟨htx, transform_append_dropped deps hdr _ (.multiCallUnsupported c0) pre post completion ?_⟩
  simp only [processEvent, htx]

/-- C3 witness: a concrete invocation with call-array length 5 is dropped
and removing it leaves the block output unchanged. -/
theorem c3_multicall_witness :
    (5 : Nat) ≠ 1
  ∧ (toTypedEthTx specDeps.parse { calldata? := some [5], signature := sig35 }
        = .dropped (.multiCallUnsupported 5)
      ∧ transform specDeps hdr0
          ([mkEvent (some 0) 5 []] ++
            { transaction := { calldata? := some [5], signature := sig35 },
              receipt := { transactionIndex := some 1, events := [] },
              event := { gasUsed := 1, success := true } } :: []) []
        = transform specDeps hdr0 ([mkEvent (some 0) 5 []] ++ []) []) :=
  ⟨by decide,
   c3_multicall_dropped specDeps 5 [] sig35
     { transactionIndex := some 1, events := [] }
     { gasUsed := 1, success := true } hdr0 [mkEvent (some 0) 5 []] [] [] (by decide)⟩

/-- C4: for an invocation that passes the calldata checks, a signature
limb array whose length is not exactly 5 fails with
InvalidSignatureLength and the invocation is dropped, the block's output
being identical to the output without it; when the length is exactly 5,
the decode proceeds with `r = limbs[1] <<< 128 ||| limbs[0]`,
`s = limbs[3] <<< 128 ||| limbs[2]` and `v = limbs[4]`, with no further
validation at this stage (the values are handed to the parse-and-sign
continuation unconditionally, whatever their magnitude). -/
theorem c4_signature_length (deps : ExternalDeps) (rest sig : List Nat)
    (rc : TransactionReceipt) (oe : OutcomeEvent) (hdr : BlockHeader)
    (pre post : List EventWithTransaction) (completion : List TxArtifacts) :
    (sig.length ≠ 5 →
        toTypedEthTx deps.parse { calldata? := some (1 :: rest), signature := sig }
            = .dropped (.invalidSignatureLength sig.length)
      ∧ transform deps hdr
          (pre ++ { transaction := { calldata? := some (1 :: rest), signature := sig },
                    receipt := rc, event := oe } :: post) completion
        = transform deps hdr (pre ++ post) completion)
  ∧ (∀ l0 l1 l2 l3 l4 : Nat, sig = [l0, l1, l2, l3, l4] →
      toTypedEthTx deps.parse { calldata? := some (1 :: rest), signature := sig }
        = catchResult
            (parseAndSign deps.parse (((1 :: rest).drop 6).flatMap bigIntToBytes)
              (l1 <<< 128 ||| l0) (l3 <<< 128 ||| l2) l4)) := by
  constructor
  · intro hlen
    have htx : toTypedEthTx deps.parse { calldata? := some (1 :: rest), signature := sig }
        = .dropped (.invalidSignatureLength sig.length) := by
      rcases sig with _ | ⟨a0, _ | ⟨a1, _ | ⟨a2, _ | ⟨a3, _ | ⟨a4, _ | ⟨a5, tail⟩⟩⟩⟩⟩⟩
      · rfl
      · rfl
      · rfl
      · rfl
      · rfl
      · exact absurd rfl hlen
      · rfl
    exact ⟨htx, transform_append_dropped deps hdr _ (.invalidSignatureLength sig.length)
      pre post completion (by simp only [processEvent, htx])⟩
  · intro l0 l1 l2 l3 l4 hsig
    subst hsig
    rfl

/-- C4 witness: a 4-limb and a 6-limb signature are rejected with
InvalidSignatureLength (contributing no items), and for a concrete 5-limb
signature the decode proceeds with the recombined `(r, s, v)`. -/
theorem c4_signature_length_witness :
    (([0, 0, 0, 35] : List Nat).length ≠ 5
      ∧ (toTypedEthTx specDeps.parse
            { calldata? := some (1 :: [0, 0, 0, 0, 0, 192]), signature := [0, 0, 0, 35] }
          = .dropped (.invalidSignatureLength ([0, 0, 0, 35] : List Nat).length)
        ∧ transform specDeps hdr0
            ([mkEvent (some 0) 5 []] ++
              { transaction := { calldata? := some (1 :: [0, 0, 0, 0, 0, 192]),
                                 signature := [0, 0, 0, 35] },
                receipt := { transactionIndex := some 1, events := [] },
                event := { gasUsed := 1, success := true } } :: []) []
          = transform specDeps hdr0 ([mkEvent (some 0) 5 []] ++ []) []))
  ∧ (([6, 7, 8, 9, 35, 1] : List Nat).length ≠ 5
      ∧ toTypedEthTx specDeps.parse
            { calldata? := some (1 :: [0, 0, 0, 0, 0, 192]), signature := [6, 7, 8, 9, 35, 1] }
          = .dropped (.invalidSignatureLength ([6, 7, 8, 9, 35, 1] : List Nat).length))
  ∧ ([6, 7, 8, 9, 35] : List Nat) = [6, 7, 8, 9, 35]
  ∧ toTypedEthTx specDeps.parse
        { calldata? := some (1 :: [0, 0, 0, 0, 0, 192]), signature := [6, 7, 8, 9, 35] }
      = catchResult
          (parseAndSign specDeps.parse (((1 :: [0, 0, 0, 0, 0, 192]).drop 6).flatMap bigIntToBytes)
            (7 <<< 128 ||| 6) (9 <<< 128 ||| 8) 35) :=
  ⟨⟨by decide,
    (c4_signature_length specDeps [0, 0, 0, 0, 0, 192] [0, 0, 0, 35]
      { transactionIndex := some 1, events := [] }
      { gasUsed := 1, success := true } hdr0 [mkEvent (some 0) 5 []] [] []).1 (by decide)⟩,
   ⟨by decide,
    ((c4_signature_length specDeps [0, 0, 0, 0, 0, 192] [6, 7, 8, 9, 35, 1]
      { transactionIndex := some 1, events := [] }
      { gasUsed := 1, success := true } hdr0 [] [] []).1 (by decide)).1⟩,
   rfl,
   (c4_signature_length specDeps [0, 0, 0, 0, 0, 192] [6, 7, 8, 9, 35]
      { transactionIndex := some 1, events := [] }
      { gasUsed := 1, success := true } hdr0 [] [] []).2 6 7 8 9 35 rfl⟩

/-- C5: signature attachment rejects a Legacy transaction with `v < 35`
by throwing `Error("Invalid v value: v")` — which the surrounding
try/catch of the decode converts into a dropped invocation — and accepts
any `v ≥ 35`; for AccessList and FeeMarket transactions `v` is accepted
unchanged with no lower bound. -/
theorem c5_legacy_v_check (n gp gl : Nat) (ta : Option Nat) (val : Nat) (d : List Nat)
    (cid mpf mf : Nat) (al : List (Nat × List Nat)) (r s v : Nat) :
    (v < 35 → addSignature (.legacy n gp gl ta val d) r s v
        = .error (.errorInst ("Invalid v value: " ++ toString v)))
  ∧ (35 ≤ v → addSignature (.legacy n gp gl ta val d) r s v
        = .ok { unsigned := .legacy n gp gl ta val d, sig := some (v, r, s) })
  ∧ addSignature (.accessList cid n gp gl ta val d al) r s v
        = .ok { unsigned := .accessList cid n gp gl ta val d al, sig := some (v, r, s) }
  ∧ addSignature (.feeMarket cid n mpf mf gl ta val d al) r s v
        = .ok { unsigned := .feeMarket cid n mpf mf gl ta val d al, sig := some (v, r, s) }
  ∧ (∀ (parse : List Nat → Except Thrown UnsignedTx) (bytes : List Nat),
      parse bytes = .ok (.legacy n gp gl ta val d) → v < 35 →
        catchResult (parseAndSign parse bytes r s v)
          = .dropped (.caughtError ("Invalid v value: " ++ toString v))) := by
  refine ⟨fun h => ?_, fun h => ?_, rfl, rfl, fun parse bytes hp hv => ?_⟩
  · simp [addSignature, h]
  · simp [addSignature, Nat.not_lt.2 h]
  · simp [parseAndSign, hp, addSignature, hv, catchResult]

/-- C5 witness: a Legacy transaction with `v = 27` is rejected (and the
caught error drops the invocation), one with `v = 37` is accepted, and an
AccessList transaction accepts `v = 0`. -/
theorem c5_legacy_v_check_witness :
    ((27 : Nat) < 35
      ∧ addSignature (.legacy 1 2 3 (some 4) 5 [6]) 7 8 27
          = .error (.errorInst ("Invalid v value: " ++ toString (27 : Nat))))
  ∧ ((35 : Nat) ≤ 37
      ∧ addSignature (.legacy 1 2 3 (some 4) 5 [6]) 7 8 37
          = .ok { unsigned := .legacy 1 2 3 (some 4) 5 [6], sig := some (37, 7, 8) })
  ∧ addSignature (.accessList 9 1 2 3 (some 4) 5 [6] []) 7 8 0
      = .ok { unsigned := .accessList 9 1 2 3 (some 4) 5 [6] [], sig := some (0, 7, 8) }
  ∧ (fromSerializedData [192, 5] = .ok (.legacy 0 0 0 none 0 [5])
      ∧ (27 : Nat) < 35
      ∧ catchResult (parseAndSign fromSerializedData [192, 5] 7 8 27)
          = .dropped (.caughtError ("Invalid v value: " ++ toString (27 : Nat)))) :=
  ⟨⟨by decide, (c5_legacy_v_check 1 2 3 (some 4) 5 [6] 9 0 0 [] 7 8 27).1 (by decide)⟩,
   ⟨by decide, (c5_legacy_v_check 1 2 3 (some 4) 5 [6] 9 0 0 [] 7 8 37).2.1 (by decide)⟩,
   (c5_legacy_v_check 1 2 3 (some 4) 5 [6] 9 0 0 [] 7 8 0).2.2.1,
   ⟨by decide, by decide,
    (c5_legacy_v_check 0 0 0 none 0 [5] 9 0 0 [] 7 8 27).2.2.2.2
      fromSerializedData [192, 5] (by decide) (by decide)⟩⟩

/-- C6: for every block whose transform succeeds, the output sequence
contains exactly one header StoreItem and that header item is the last
element, occurring after every transaction, receipt and log item. -/
theorem c6_header_last (deps : ExternalDeps) (hdr : BlockHeader)
    (events : List EventWithTransaction) (completion arts : List TxArtifacts)
    (store : List StoreItem)
    (_h1 : phase1 deps hdr.blockNumber hdr.blockHash events = .ok arts)
    (_h2 : List.Perm completion arts)
    (h3 : transform deps hdr events completion = .ok store) :
    ∃ h, headersOf store = [h] ∧ store.getLast? = some (.headerItem h) := by
  have hs := transform_ok_inv deps hdr events completion store h3
  subst hs
  exact ⟨headerOut deps hdr completion, headersOf_buildStore deps hdr completion,
    buildStore_getLast deps hdr completion⟩

/-- A one-invocation block used by the concrete instantiations of the
block-level theorems: one surviving transaction with one kept event. -/
def wEvents : List EventWithTransaction := [mkEvent (some 0) 7 [rawEv]]

/-- The phase-1 survivors of `wEvents`. -/
def wArts : List TxArtifacts :=
  match phase1 specDeps hdr0.blockNumber hdr0.blockHash wEvents with
  | .ok arts => arts
  | .error _ => []

/-- The store emitted for `wEvents`. -/
def wStore : List StoreItem := buildStore specDeps hdr0 wArts

/-- C6 witness: the header-last property instantiated on a concrete
one-transaction block. -/
theorem c6_header_last_witness :
    (phase1 specDeps hdr0.blockNumber hdr0.blockHash wEvents = .ok wArts
      ∧ List.Perm wArts wArts
      ∧ transform specDeps hdr0 wEvents wArts = .ok wStore)
  ∧ ∃ h, headersOf wStore = [h] ∧ wStore.getLast? = some (.headerItem h) :=
  ⟨⟨by decide, List.Perm.refl wArts, by decide⟩,
   c6_header_last specDeps hdr0 wEvents wArts wArts wStore (by decide)
     (List.Perm.refl wArts) (by decide)⟩

/-- C7: for every block whose transform succeeds, the number of emitted
log StoreItems equals the sum over surviving transactions of the number
of their non-filtered events, and within each surviving transaction the
logIndex fields are exactly 0, 1, ... over the filtered per-transaction
log sequence. -/
theorem c7_log_items (deps : ExternalDeps) (hdr : BlockHeader)
    (events : List EventWithTransaction) (completion arts : List TxArtifacts)
    (store : List StoreItem)
    (h1 : phase1 deps hdr.blockNumber hdr.blockHash events = .ok arts)
    (h2 : List.Perm completion arts)
    (h3 : transform deps hdr events completion = .ok store) :
    (logsOf store).length = (arts.map (fun a => a.ethLogs.length)).sum
  ∧ (∀ a ∈ arts, ∃ e ∈ events,
        processEvent deps hdr.blockNumber hdr.blockHash e = .survived a
      ∧ a.ethLogs.length =
          (e.receipt.events.filterMap
            (toEthLog deps.ignoredKeys deps.expectedKeyCount a.ethTx)).length)
  ∧ ∀ a ∈ arts, a.ethLogs.map (fun l => l.logIndex) = List.range a.ethLogs.length := by
  have hs := transform_ok_inv deps hdr events completion store h3
  subst hs
  refine ⟨?_, ?_, ?_⟩
  · rw [logsOf_buildStore]
    have hlen : ∀ l : List TxArtifacts,
        (l.flatMap (fun a => a.ethLogs)).length = (l.map (fun a => a.ethLogs.length)).sum := by
      intro l
      induction l with
      | nil => rfl
      | cons a r ih =>
          rw [List.flatMap_cons, List.length_append, ih, List.map_cons, List.sum_cons]
    rw [hlen]
    exact (h2.map (fun a => a.ethLogs.length)).sum_eq
  · intro a ha
    obtain ⟨e, he, hpe⟩ := phase1_mem deps hdr.blockNumber hdr.blockHash events arts h1 a ha
    refine ⟨e, he, hpe, ?_⟩
    rw [processEvent_survived_logs deps hdr.blockNumber hdr.blockHash e a hpe]
    simp
  · intro a ha
    obtain ⟨e, he, hpe⟩ := phase1_mem deps hdr.blockNumber hdr.blockHash events arts h1 a ha
    have hl := processEvent_survived_logs deps hdr.blockNumber hdr.blockHash e a hpe
    rw [hl, enum_logIndex_range]
    congr 1
    simp

/-- C7 witness: the log-count and logIndex-contiguity property
instantiated on a concrete one-transaction block with one kept event. -/
theorem c7_log_items_witness :
    (phase1 specDeps hdr0.blockNumber hdr0.blockHash wEvents = .ok wArts
      ∧ List.Perm wArts wArts
      ∧ transform specDeps hdr0 wEvents wArts = .ok wStore)
  ∧ ((logsOf wStore).length = (wArts.map (fun a => a.ethLogs.length)).sum
      ∧ (∀ a ∈ wArts, ∃ e ∈ wEvents,
            processEvent specDeps hdr0.blockNumber hdr0.blockHash e = .survived a
          ∧ a.ethLogs.length =
              (e.receipt.events.filterMap
                (toEthLog specDeps.ignoredKeys specDeps.expectedKeyCount a.ethTx)).length)
      ∧ ∀ a ∈ wArts, a.ethLogs.map (fun l => l.logIndex) = List.range a.ethLogs.length) :=
  ⟨⟨by decide, List.Perm.refl wArts, by decide⟩,
   c7_log_items specDeps hdr0 wEvents wArts wArts wStore (by decide)
     (List.Perm.refl wArts) (by decide)⟩

/-- C8: for every block whose transform succeeds, the block-level bloom
in the emitted header equals the bitwise-or reduction of the surviving
transactions' per-receipt blooms, and that value is the same for every
order in which the per-receipt blooms are merged. -/
theorem c8_bloom_or_reduction (deps : ExternalDeps) (hdr : BlockHeader)
    (events : List EventWithTransaction) (completion arts : List TxArtifacts)
    (store : List StoreItem)
    (_h1 : phase1 deps hdr.blockNumber hdr.blockHash events = .ok arts)
    (h2 : List.Perm completion arts)
    (h3 : transform deps hdr events completion = .ok store) :
    ∃ h, headersOf store = [h]
      ∧ h.logsBloom = (arts.map (fun a => a.ethReceipt.logsBloom)).foldl Nat.lor 0
      ∧ ∀ completion2, List.Perm completion2 arts →
          (completion2.map (fun a => a.ethReceipt.logsBloom)).foldl Nat.lor 0
            = h.logsBloom := by
  have hs := transform_ok_inv deps hdr events completion store h3
  subst hs
  refine ⟨headerOut deps hdr completion, headersOf_buildStore deps hdr completion, ?_, ?_⟩
  · show (completion.map (fun a => a.ethReceipt.logsBloom)).foldl Nat.lor 0 = _
    exact foldl_lor_perm (h2.map (fun a => a.ethReceipt.logsBloom)) 0
  · intro c2 hp
    show (c2.map (fun a => a.ethReceipt.logsBloom)).foldl Nat.lor 0
        = (completion.map (fun a => a.ethReceipt.logsBloom)).foldl Nat.lor 0
    calc (c2.map (fun a => a.ethReceipt.logsBloom)).foldl Nat.lor 0
        = (arts.map (fun a => a.ethReceipt.logsBloom)).foldl Nat.lor 0 :=
          foldl_lor_perm (hp.map (fun a => a.ethReceipt.logsBloom)) 0
      _ = (completion.map (fun a => a.ethReceipt.logsBloom)).foldl Nat.lor 0 :=
          (foldl_lor_perm (h2.map (fun a => a.ethReceipt.logsBloom)) 0).symm

/-- C8 witness: the bloom or-reduction property instantiated on a
concrete one-transaction block. -/
theorem c8_bloom_or_reduction_witness :
    (phase1 specDeps hdr0.blockNumber hdr0.blockHash wEvents = .ok wArts
      ∧ List.Perm wArts wArts
      ∧ transform specDeps hdr0 wEvents wArts = .ok wStore)
  ∧ ∃ h, headersOf wStore = [h]
      ∧ h.logsBloom = (wArts.map (fun a => a.ethReceipt.logsBloom)).foldl Nat.lor 0
      ∧ ∀ completion2, List.Perm completion2 wArts →
          (completion2.map (fun a => a.ethReceipt.logsBloom)).foldl Nat.lor 0
            = h.logsBloom :=
  ⟨⟨by decide, List.Perm.refl wArts, by decide⟩,
   c8_bloom_or_reduction specDeps hdr0 wEvents wArts wArts wStore (by decide)
     (List.Perm.refl wArts) (by decide)⟩

/-- C9: for a signed transaction whose upstream receipt lacks a
transactionIndex, the transaction formatter does not fail: it emits
exactly one non-fatal diagnostic and returns the JSON-RPC record with
transactionIndex defaulted to 0 (the formatter being a pure mapping, it
has no other effect). -/
theorem c9_missing_index_default (deps : ExternalDeps) (tx : TypedTransaction)
    (rc : TransactionReceipt) (bn bh v r s : Nat)
    (hsig : tx.sig = some (v, r, s)) (hidx : rc.transactionIndex = none) :
    (toEthTx deps tx rc bn bh).diagnostics = [indexDiagMsg]
  ∧ ∃ rec, (toEthTx deps tx rc bn bh).tx? = some rec ∧ rec.transactionIndex = 0 := by
  constructor
  · simp [toEthTx, hsig, hidx]
  · have h : (toEthTx deps tx rc bn bh).tx? = some
        { blockNumber := bn
          blockHash := bh
          fromAddr := deps.senderOf tx
          gas := gasLimitOf tx.unsigned
          gasPrice := gasPriceOf tx.unsigned
          txType := txTypeOf tx.unsigned
          hash := deps.hashOf tx
          nonce := nonceOf tx.unsigned
          toAddr := toAddrOf tx.unsigned
          transactionIndex := 0
          value := valueOf tx.unsigned
          v := v
          r := r
          s := s } := by
      simp [toEthTx, hsig, hidx]
    exact ⟨_, h, rfl⟩

/-- C9 witness: the missing-index default instantiated on a concrete
signed legacy transaction and an index-less receipt. -/
theorem c9_missing_index_default_witness :
    (({ unsigned := .legacy 0 0 0 none 0 [], sig := some (35, 1, 2) } : TypedTransaction).sig
        = some (35, 1, 2)
      ∧ ({ transactionIndex := none, events := [] } : TransactionReceipt).transactionIndex
        = none)
  ∧ ((toEthTx specDeps { unsigned := .legacy 0 0 0 none 0 [], sig := some (35, 1, 2) }
        { transactionIndex := none, events := [] } 100 200).diagnostics = [indexDiagMsg]
      ∧ ∃ rec, (toEthTx specDeps { unsigned := .legacy 0 0 0 none 0 [], sig := some (35, 1, 2) }
          { transactionIndex := none, events := [] } 100 200).tx? = some rec
        ∧ rec.transactionIndex = 0) :=
  ⟨⟨rfl, rfl⟩,
   c9_missing_index_default specDeps
     { unsigned := .legacy 0 0 0 none 0 [], sig := some (35, 1, 2) }
     { transactionIndex := none, events := [] } 100 200 35 1 2 rfl rfl⟩

/-- C10: when the parse of the RLP payload (or the signature attachment
composed behind it) throws a value that is not an `Error` instance,
`toTypedEthTx` rethrows it instead of returning `null`, and the whole
block's transform aborts with an error; a thrown `Error` instance is
instead converted into a dropped invocation. -/
theorem c10_nonerror_rethrow (deps : ExternalDeps) (rest : List Nat)
    (l0 l1 l2 l3 l4 : Nat) (x m : String)
    (rc : TransactionReceipt) (oe : OutcomeEvent) (hdr : BlockHeader)
    (pre post : List EventWithTransaction) (completion : List TxArtifacts) :
    (parseAndSign deps.parse (((1 :: rest).drop 6).flatMap bigIntToBytes)
        (uint256ToBN l1 l0) (uint256ToBN l3 l2) l4 = .error (.nonError x) →
      toTypedEthTx deps.parse
          { calldata? := some (1 :: rest), signature := [l0, l1, l2, l3, l4] }
        = .thrown (.nonError x)
      ∧ ∃ w, transform deps hdr
          (pre ++ { transaction := { calldata? := some (1 :: rest),
                                     signature := [l0, l1, l2, l3, l4] },
                    receipt := rc, event := oe } :: post) completion
        = .error w)
  ∧ (parseAndSign deps.parse (((1 :: rest).drop 6).flatMap bigIntToBytes)
        (uint256ToBN l1 l0) (uint256ToBN l3 l2) l4 = .error (.errorInst m) →
      toTypedEthTx deps.parse
          { calldata? := some (1 :: rest), signature := [l0, l1, l2, l3, l4] }
        = .dropped (.caughtError m)) := by
  constructor
  · intro hp
    have htx : toTypedEthTx deps.parse
        { calldata? := some (1 :: rest), signature := [l0, l1, l2, l3, l4] }
        = .thrown (.nonError x) := by
      show catchResult
        (parseAndSign deps.parse (((1 :: rest).drop 6).flatMap bigIntToBytes)
          (uint256ToBN l1 l0) (uint256ToBN l3 l2) l4) = .thrown (.nonError x)
      rw [hp]
      rfl
    exact ⟨htx, transform_append_thrown deps hdr _ (.nonError x) pre post completion
      (by simp only [processEvent, htx])⟩
  · intro hp
    show catchResult
      (parseAndSign deps.parse (((1 :: rest).drop 6).flatMap bigIntToBytes)
        (uint256ToBN l1 l0) (uint256ToBN l3 l2) l4) = .dropped (.caughtError m)
    rw [hp]
    rfl

/-- External dependencies whose parser throws a non-`Error` value, used
to instantiate the rethrow behaviour concretely. -/
def nonErrorDeps : ExternalDeps :=
  { specDeps with parse := fun _ => .error (.nonError "a string throw") }

/-- C10 witness: a non-`Error` throw from the parser is rethrown and
aborts a concrete block, while an `Error` throw (empty payload bytes) is
converted into a dropped invocation. -/
theorem c10_nonerror_rethrow_witness :
    (parseAndSign nonErrorDeps.parse (((1 :: [0, 0, 0, 0, 0, 192]).drop 6).flatMap bigIntToBytes)
        (uint256ToBN 0 0) (uint256ToBN 0 0) 35 = .error (.nonError "a string throw")
      ∧ (toTypedEthTx nonErrorDeps.parse
            { calldata? := some (1 :: [0, 0, 0, 0, 0, 192]), signature := [0, 0, 0, 0, 35] }
          = .thrown (.nonError "a string throw")
        ∧ ∃ w, transform nonErrorDeps hdr0
            ([] ++ { transaction := { calldata? := some (1 :: [0, 0, 0, 0, 0, 192]),
                                      signature := [0, 0, 0, 0, 35] },
                     receipt := { transactionIndex := some 0, events := [] },
                     event := { gasUsed := 1, success := true } } :: []) []
          = .error w))
  ∧ (parseAndSign specDeps.parse (((1 :: ([] : List Nat)).drop 6).flatMap bigIntToBytes)
        (uint256ToBN 0 0) (uint256ToBN 0 0) 35 = .error (.errorInst "serialized data is empty")
      ∧ toTypedEthTx specDeps.parse
          { calldata? := some (1 :: ([] : List Nat)), signature := [0, 0, 0, 0, 35] }
        = .dropped (.caughtError "serialized data is empty")) :=
  ⟨⟨by decide,
    (c10_nonerror_rethrow nonErrorDeps [0, 0, 0, 0, 0, 192] 0 0 0 0 35 "a string throw" "m0"
      { transactionIndex := some 0, events := [] } { gasUsed := 1, success := true }
      hdr0 [] [] []).1 (by decide)⟩,
   ⟨by decide,
    (c10_nonerror_rethrow specDeps [] 0 0 0 0 35 "x0" "serialized data is empty"
      { transactionIndex := some 0, events := [] } { gasUsed := 1, success := true }
      hdr0 [] [] []).2 (by decide)⟩⟩
